import Mathlib

/-!
Verification development for the hermes finite-element driver
(`hermes2d/test_examples/01-poisson/main.cpp`) against its specification.

The driver exercises a mesh / H1 function space / weak form / linear solver
pipeline whose library internals are not part of the visible sources, so the
data model and the operations below are modelled from the specification
(mesh with tagged elements and boundary edges, DOF space partitioned into
vertex, edge and bubble functions, lowest-order triangle assembly over exact
rational arithmetic, Dirichlet elimination by lifting, adjugate-based
linear solve).
-/

/-- Modelled from the spec, §7: the error taxonomy of the library
(the library's exception classes are not in the visible sources). -/
inductive HermesError where
  | InvalidRegionError
  | InvalidElementError
  | IncompatibleMeshError
  | AssemblyError
  | SolverError
  | DimensionMismatchError
  | NotSolvedError
deriving DecidableEq

/-- Modelled from the spec, §3: a mesh edge joins two vertices (given by their
indices into the coordinate table) and optionally carries a named boundary
marker; `none` marks an interior edge. -/
structure Edge where
  v1 : Nat
  v2 : Nat
  marker : Option String
deriving DecidableEq

/-- Modelled from the spec, §3 and §9: a mesh element, tagged with a named
material region, referencing its vertices and edges by index; refinement
retires a parent by clearing `active` and appends children. -/
structure Element where
  id : Nat
  material : String
  vs : List Nat
  es : List Nat
  active : Bool
deriving DecidableEq

instance : Inhabited Element := ⟨⟨0, "", [], [], false⟩⟩

/-- Modelled from the spec, §3: a mesh is an arena of vertices (with rational
coordinates, standing in for the library's doubles), edges and elements,
addressed by stable integer indices. A vertex id is its index into `coords`. -/
structure Mesh where
  coords : List (ℚ × ℚ)
  edges : List Edge
  elements : List Element
deriving DecidableEq

/-- Modelled from the spec, §3: essential (Dirichlet) boundary conditions,
a finite map from boundary-marker names to prescribed values
(`DefaultEssentialBCConst` in the driver maps four markers to one constant). -/
structure EssentialBCs where
  table : List (String × ℚ)
deriving DecidableEq

/-- Look up the Dirichlet value prescribed for a boundary marker. -/
def EssentialBCs.valueOf (bcs : EssentialBCs) (mk : String) : Option ℚ :=
  (bcs.table.find? (fun p => p.1 == mk)).map (fun p => p.2)

/-- An optional edge marker is essential when it names a marker present in the
boundary-condition table. -/
def EssentialBCs.essentialMarker (bcs : EssentialBCs) (mk : Option String) : Bool :=
  match mk with
  | none => false
  | some s => (bcs.valueOf s).isSome

/-- The boundary edges of the mesh adjacent to vertex `v`: marked edges having
`v` as an endpoint. -/
def Mesh.vertexBoundaryEdges (m : Mesh) (v : Nat) : List Edge :=
  m.edges.filter (fun e => e.marker.isSome && (e.v1 == v || e.v2 == v))

/-- Modelled from the spec, §4.2: a vertex is constrained when it lies on the
essential boundary, i.e. it has adjacent boundary edges and every one of them
carries an essential marker; constrained vertices get no vertex DOF. -/
def Mesh.vertexConstrained (m : Mesh) (bcs : EssentialBCs) (v : Nat) : Bool :=
  !(m.vertexBoundaryEdges v).isEmpty &&
    (m.vertexBoundaryEdges v).all (fun e => bcs.essentialMarker e.marker)

/-- The Dirichlet value carried by an edge: the value its marker is mapped to
by the boundary conditions, when there is one. -/
def edgeBCValue (bcs : EssentialBCs) (e : Edge) : Option ℚ :=
  match e.marker with
  | some mk => EssentialBCs.valueOf bcs mk
  | none => none

/-- Modelled from the spec, §4.4: the Dirichlet value prescribed at a
constrained vertex, read off the first adjacent essential boundary edge. -/
def Mesh.dirichletValue (m : Mesh) (bcs : EssentialBCs) (v : Nat) : ℚ :=
  ((m.vertexBoundaryEdges v).filterMap (edgeBCValue bcs)).headD 0

/-- Modelled from the spec, §3 and §4.2: an H1 function space over a mesh,
holding the boundary conditions and one polynomial order per element
(position-indexed parallel to `mesh.elements`). -/
structure H1Space where
  mesh : Mesh
  bcs : EssentialBCs
  orders : List Nat
deriving DecidableEq

/-- Modelled from the spec, §4.2: construction assigns `default_order` to
every element (`H1Space(mesh, &bcs, P_INIT)` in the driver). -/
def H1Space.build (m : Mesh) (bcs : EssentialBCs) (default_order : Nat) : H1Space :=
  ⟨m, bcs, m.elements.map (fun _ => default_order)⟩

/-- The polynomial order assigned to the element at position `i`. -/
def H1Space.orderAt (s : H1Space) (i : Nat) : Nat :=
  s.orders.getD i 0

/-- The orders of the active elements adjacent to edge `eidx`. -/
def H1Space.edgeAdjacentOrders (s : H1Space) (eidx : Nat) : List Nat :=
  ((List.range s.mesh.elements.length).filter (fun i =>
      (s.mesh.elements.getD i default).active &&
        (s.mesh.elements.getD i default).es.contains eidx)).map s.orderAt

/-- Modelled from the spec, §3: the effective polynomial order of an edge is
the minimum order among its adjacent active elements (0 when there are none). -/
def H1Space.effectiveEdgeOrder (s : H1Space) (eidx : Nat) : Nat :=
  match s.edgeAdjacentOrders eidx with
  | [] => 0
  | o :: rest => rest.foldl Nat.min o

/-- Modelled from the spec, §4.2: the number of edge shape functions carried
by edge `eidx`: zero on an essential boundary edge, otherwise the
order-dependent polynomial count `effective order - 1`. -/
def H1Space.edgeDofCount (s : H1Space) (eidx : Nat) : Nat :=
  if s.bcs.essentialMarker ((s.mesh.edges.getD eidx ⟨0, 0, none⟩).marker) then 0
  else s.effectiveEdgeOrder eidx - 1

/-- Modelled from the spec, §4.2: the number of interior (bubble) shape
functions of a 2D element of order `o`, growing as O(order²). -/
def bubbleCountOfOrder (o : Nat) : Nat :=
  (o - 1) * (o - 1)

/-- The bubble-function count contributed by the element at position `i`. -/
def H1Space.elemBubbleCount (s : H1Space) (i : Nat) : Nat :=
  if (s.mesh.elements.getD i default).active then bubbleCountOfOrder (s.orderAt i) else 0

/-- Source accessor `get_vertex_functions_count`: one DOF per unconstrained
vertex. -/
def H1Space.get_vertex_functions_count (s : H1Space) : Nat :=
  (List.range s.mesh.coords.length).countP (fun v => !(s.mesh.vertexConstrained s.bcs v))

/-- Source accessor `get_edge_functions_count`: total edge DOFs. -/
def H1Space.get_edge_functions_count (s : H1Space) : Nat :=
  ((List.range s.mesh.edges.length).map s.edgeDofCount).sum

/-- Source accessor `get_bubble_functions_count`: total interior DOFs. -/
def H1Space.get_bubble_functions_count (s : H1Space) : Nat :=
  ((List.range s.mesh.elements.length).map s.elemBubbleCount).sum

/-- Modelled from the spec, §4.2: the DOF numbering pass. A single counter
walks the vertices (one DOF per unconstrained vertex), then the edges, then
the elements, handing out consecutive indices; `get_num_dofs` is the final
counter value. -/
def H1Space.assignDofs (s : H1Space) : Nat :=
  let c0 := (List.range s.mesh.coords.length).foldl
    (fun c v => if s.mesh.vertexConstrained s.bcs v then c else c + 1) 0
  let c1 := (List.range s.mesh.edges.length).foldl
    (fun c e => c + s.edgeDofCount e) c0
  (List.range s.mesh.elements.length).foldl
    (fun c i => c + s.elemBubbleCount i) c1

/-- Source accessor `get_num_dofs`: the total DOF count produced by the
numbering pass. -/
def H1Space.get_num_dofs (s : H1Space) : Nat :=
  s.assignDofs

/-- Modelled from the spec, §4.2: `set_element_order(element_id, order)` fails
with `InvalidElementError` when no active element has the given id, else
updates that element's order assignment. -/
def H1Space.set_element_order (s : H1Space) (eid o : Nat) : Except HermesError H1Space :=
  match (List.range s.mesh.elements.length).find? (fun i =>
      (s.mesh.elements.getD i default).active &&
        ((s.mesh.elements.getD i default).id == eid)) with
  | none => .error .InvalidElementError
  | some i => .ok ⟨s.mesh, s.bcs, s.orders.set i o⟩

/-- The topological fingerprint of an edge (its endpoints). -/
def Edge.topo (e : Edge) : Nat × Nat :=
  (e.v1, e.v2)

/-- The topological fingerprint of an element (id, connectivity, activity). -/
def Element.topo (e : Element) : Nat × List Nat × List Nat × Bool :=
  (e.id, e.vs, e.es, e.active)

/-- Modelled from the spec, §4.2: structural compatibility of two meshes —
equal vertex/edge/element counts and equal connectivity. -/
def Mesh.compatible (m1 m2 : Mesh) : Bool :=
  (m1.coords.length == m2.coords.length) &&
    (m1.edges.map Edge.topo == m2.edges.map Edge.topo) &&
    (m1.elements.map Element.topo == m2.elements.map Element.topo)

/-- Modelled from the spec, §4.2: `copy(other_space, target_mesh)` deep-clones
order assignments and BC references onto a structurally compatible target
mesh; fails with `IncompatibleMeshError` when the topology differs. -/
def H1Space.copy (other : H1Space) (target : Mesh) : Except HermesError H1Space :=
  if Mesh.compatible other.mesh target then .ok ⟨target, other.bcs, other.orders⟩
  else .error .IncompatibleMeshError

/-- Modelled from the spec, §4.1 and §9: one refinement sweep. Every active
element whose material is in `names` is retired (marked inactive) and four
children carrying its material are appended to the arena with fresh ids
(the geometric detail of subdivision is outside the visible sources). -/
def Mesh.refineOnce (m : Mesh) (names : List String) : Mesh :=
  let base := (m.elements.map (fun e => e.id)).foldl Nat.max 0 + 1
  let step := m.elements.foldl (fun (acc : List Element × Nat) e =>
    if e.active && names.contains e.material then
      (acc.1 ++ [{ e with active := false }] ++
        (List.range 4).map (fun k =>
          { id := acc.2 + k, material := e.material, vs := [], es := [], active := true }),
        acc.2 + 4)
    else (acc.1 ++ [e], acc.2)) ([], base)
  { m with elements := step.1 }

/-- Iterated refinement sweeps. -/
def refineSteps (names : List String) : Nat → Mesh → Mesh
  | 0, m => m
  | n + 1, m => refineSteps names n (m.refineOnce names)

/-- Modelled from the spec, §4.1: `refine(region_names, levels)`. Subdivides
every element whose material tag is in `region_names`, recursively `levels`
times; fails with `InvalidRegionError` when some name matches no element, and
then performs no mutation at all (atomicity: the input mesh is returned to the
caller untouched, no `.ok` mesh is produced). -/
def Mesh.refine_in_areas (m : Mesh) (names : List String) (levels : Nat) :
    Except HermesError Mesh :=
  if names.all (fun nm => m.elements.any (fun e => e.active && e.material == nm)) then
    .ok (refineSteps names levels m)
  else .error .InvalidRegionError

/-- Modelled from the spec, §4.1: `refine_single(region_name)`, same contract
with one level and one region. -/
def Mesh.refine_in_area (m : Mesh) (name : String) : Except HermesError Mesh :=
  m.refine_in_areas [name] 1

/-- Modelled from the spec, §4.3: a weak form holds one scalar diffusion
coefficient per material region and one global volumetric source (the driver's
`CustomWeakFormPoisson` on "Aluminum" and "Copper"); immutable. -/
structure WeakForm where
  regions : List (String × ℚ)
  source : ℚ
deriving DecidableEq

/-- The diffusion coefficient registered for a material region. -/
def WeakForm.coeffOf (wf : WeakForm) (mat : String) : Option ℚ :=
  (wf.regions.find? (fun p => p.1 == mat)).map (fun p => p.2)

/-- Scatter indicator: 1 when local vertex `x` hits global index `j`. -/
def ind (x j : Nat) : ℚ :=
  if x = j then 1 else 0

/-- y-differences of the P1 barycentric gradients on a triangle. -/
def bcoef (pa pb pc : ℚ × ℚ) : Fin 3 → ℚ :=
  ![pb.2 - pc.2, pc.2 - pa.2, pa.2 - pb.2]

/-- x-differences of the P1 barycentric gradients on a triangle. -/
def gcoef (pa pb pc : ℚ × ℚ) : Fin 3 → ℚ :=
  ![pc.1 - pb.1, pa.1 - pc.1, pb.1 - pa.1]

/-- Twice the signed area of a triangle. -/
def area2 (pa pb pc : ℚ × ℚ) : ℚ :=
  (pb.1 - pa.1) * (pc.2 - pa.2) - (pc.1 - pa.1) * (pb.2 - pa.2)

/-- Modelled from the spec, §4.4 step 2: the exact local stiffness matrix of
the diffusion form `∫ lam ∇u·∇v` on a straight triangle for the lowest-order
basis, `lam/(4·area) · (βp·βq + γp·γq)`, in exact rational arithmetic. -/
def triK (lam : ℚ) (pa pb pc : ℚ × ℚ) (p q : Fin 3) : ℚ :=
  lam * (bcoef pa pb pc p * bcoef pa pb pc q + gcoef pa pb pc p * gcoef pa pb pc q) /
    (2 * area2 pa pb pc)

/-- Modelled from the spec, §4.4 step 3: the contribution of one triangular
element to global matrix entry `(i, j)`, scattered through the element's
vertex ids; non-triangles contribute nothing. -/
def elemMat (wf : WeakForm) (m : Mesh) (e : Element) (i j : Nat) : ℚ :=
  match e.vs with
  | [a, b, c] =>
    let lam := (wf.coeffOf e.material).getD 0
    let pa := m.coords.getD a (0, 0)
    let pb := m.coords.getD b (0, 0)
    let pc := m.coords.getD c (0, 0)
    ind a i * (ind a j * triK lam pa pb pc 0 0 + ind b j * triK lam pa pb pc 0 1 +
        ind c j * triK lam pa pb pc 0 2) +
      ind b i * (ind a j * triK lam pa pb pc 1 0 + ind b j * triK lam pa pb pc 1 1 +
        ind c j * triK lam pa pb pc 1 2) +
      ind c i * (ind a j * triK lam pa pb pc 2 0 + ind b j * triK lam pa pb pc 2 1 +
        ind c j * triK lam pa pb pc 2 2)
  | _ => 0

/-- Modelled from the spec, §4.4 step 3: the fully assembled global stiffness
matrix over all vertex DOFs, free and constrained alike; contributions to the
same entry accumulate. -/
def Afull (wf : WeakForm) (m : Mesh) (i j : Nat) : ℚ :=
  (m.elements.map (fun e => if e.active then elemMat wf m e i j else 0)).sum

/-- Modelled from the spec, §4.4 step 2: the contribution of one triangular
element to the load vector (exact P1 integration of a constant source:
`source·area/3` to each vertex). -/
def elemRhs (wf : WeakForm) (m : Mesh) (e : Element) (i : Nat) : ℚ :=
  match e.vs with
  | [a, b, c] =>
    wf.source * (area2 (m.coords.getD a (0, 0)) (m.coords.getD b (0, 0))
        (m.coords.getD c (0, 0)) / 6) * (ind a i + ind b i + ind c i)
  | _ => 0

/-- The fully assembled right-hand side over all vertex DOFs. -/
def bfull (wf : WeakForm) (m : Mesh) (i : Nat) : ℚ :=
  (m.elements.map (fun e => if e.active then elemRhs wf m e i else 0)).sum

/-- The unconstrained (free) vertices, in numbering order. -/
def Mesh.freeVerts (m : Mesh) (bcs : EssentialBCs) : List Nat :=
  (List.range m.coords.length).filter (fun v => !(m.vertexConstrained bcs v))

/-- The constrained vertices, eliminated from the solved system. -/
def Mesh.constrainedVerts (m : Mesh) (bcs : EssentialBCs) : List Nat :=
  (List.range m.coords.length).filter (fun v => m.vertexConstrained bcs v)

/-- Modelled from the spec, §4.4 step 4: the reduced system matrix after
row/column elimination of the constrained DOFs. -/
def reducedMatrix (wf : WeakForm) (m : Mesh) (bcs : EssentialBCs) :
    Matrix (Fin (m.freeVerts bcs).length) (Fin (m.freeVerts bcs).length) ℚ :=
  Matrix.of fun i j => Afull wf m ((m.freeVerts bcs).get i) ((m.freeVerts bcs).get j)

/-- Modelled from the spec, §4.4 step 4: the reduced right-hand side with the
lifting correction `b_i - Σ_c A_ic · g_c` over the constrained DOFs. -/
def reducedRhs (wf : WeakForm) (m : Mesh) (bcs : EssentialBCs) :
    Fin (m.freeVerts bcs).length → ℚ :=
  fun i => bfull wf m ((m.freeVerts bcs).get i) -
    ((m.constrainedVerts bcs).map (fun c =>
      Afull wf m ((m.freeVerts bcs).get i) c * m.dirichletValue bcs c)).sum

/-- Modelled from the spec, §4.5: the sparse direct solve, in exact arithmetic
via the adjugate; `none` signals a singular system (`SolverError`). -/
def solveSystem {n : Nat} (A : Matrix (Fin n) (Fin n) ℚ) (b : Fin n → ℚ) :
    Option (Fin n → ℚ) :=
  if A.det = 0 then none else some (A.det⁻¹ • A.adjugate.mulVec b)

/-- Modelled from the spec, §4.5: the linear solver owns the weak form, the
space, and the solution vector of the last successful solve (`none` before). -/
structure LinearSolver where
  wf : WeakForm
  space : H1Space
  slnVector : Option (List ℚ)
deriving DecidableEq

/-- Constructor `LinearSolver(&wf, space)`: not yet solved. -/
def LinearSolver.init (wf : WeakForm) (s : H1Space) : LinearSolver :=
  ⟨wf, s, none⟩

/-- Modelled from the spec, §4.4 and §4.5: `solve()` assembles and solves.
It fails with `AssemblyError` when an active element's region has no weak-form
entry, and with `SolverError` when the system cannot be solved (singular
matrix, or DOFs beyond the lowest-order vertex unknowns whose shape-function
integration is outside the visible sources). On success it stores a solution
vector of length `get_num_dofs`. -/
def LinearSolver.solve (ls : LinearSolver) : Except HermesError LinearSolver :=
  if !(ls.space.mesh.elements.all (fun e =>
      !e.active || (ls.wf.coeffOf e.material).isSome)) then
    .error .AssemblyError
  else if ls.space.get_num_dofs == (ls.space.mesh.freeVerts ls.space.bcs).length then
    match solveSystem (reducedMatrix ls.wf ls.space.mesh ls.space.bcs)
        (reducedRhs ls.wf ls.space.mesh ls.space.bcs) with
    | none => .error .SolverError
    | some x => .ok ⟨ls.wf, ls.space, some (List.ofFn x)⟩
  else .error .SolverError

/-- Modelled from the spec, §4.5: `get_sln_vector()` is defined only after a
successful `solve()`; beforehand it fails with `NotSolvedError`. -/
def LinearSolver.get_sln_vector (ls : LinearSolver) : Except HermesError (List ℚ) :=
  match ls.slnVector with
  | none => .error .NotSolvedError
  | some v => .ok v

/-- Modelled from the spec, §3: a solution is a coefficient vector bound to a
space's basis; `none` until `vector_to_solution` binds one. -/
structure Solution where
  bound : Option (List ℚ)
deriving DecidableEq

/-- A freshly initialized, unbound solution (`Solution<double> sln;`). -/
def Solution.init : Solution :=
  ⟨none⟩

/-- Modelled from the spec, §4.5: `vector_to_solution(coeff_vector, space)`
binds a raw coefficient vector to a space; fails with
`DimensionMismatchError` when the length differs from `get_num_dofs()`, and
then binds nothing (no `.ok` solution is produced). -/
def Solution.vector_to_solution (v : List ℚ) (s : H1Space) :
    Except HermesError Solution :=
  if v.length == s.get_num_dofs then .ok ⟨some v⟩ else .error .DimensionMismatchError

/-- Modelled from the spec, §4.4 step 4: lifting the constrained DOFs back
into a full nodal field: a constrained vertex gets its prescribed Dirichlet
value, a free vertex reads its entry of the solved vector. -/
def liftedSolution (s : H1Space) (x : List ℚ) (v : Nat) : ℚ :=
  if s.mesh.vertexConstrained s.bcs v then s.mesh.dirichletValue s.bcs v
  else x.getD ((s.mesh.freeVerts s.bcs).indexOf v) 0

/-- Modelled from the spec, §3: the persistent data of a function space in the
object store: a reference (by id) to the mesh it is built over, its boundary
conditions and its own order assignments. -/
structure SpaceRef where
  meshId : Nat
  bcs : EssentialBCs
  orders : List Nat
deriving DecidableEq

/-- Modelled from the driver's object lifetimes: the heap of live mesh and
space objects, addressed by integer handles, in which spaces are created,
copied, mutated and destroyed. -/
structure World where
  meshes : List (Nat × Mesh)
  spaces : List (Nat × SpaceRef)
deriving DecidableEq

/-- Dereference a mesh handle. -/
def World.findMesh (w : World) (i : Nat) : Option Mesh :=
  (w.meshes.find? (fun p => p.1 == i)).map (fun p => p.2)

/-- Dereference a space handle. -/
def World.findSpace (w : World) (i : Nat) : Option SpaceRef :=
  (w.spaces.find? (fun p => p.1 == i)).map (fun p => p.2)

/-- The full function space a handle denotes: its stored state together with
the mesh it references. Every observable of a space (DOF counts, solve) is a
pure function of this value. -/
def World.spaceOf (w : World) (i : Nat) : Option H1Space :=
  match w.findSpace i with
  | none => none
  | some sr =>
    match w.findMesh sr.meshId with
    | none => none
    | some m => some ⟨m, sr.bcs, sr.orders⟩

/-- Modelled from the spec, §4.2: `copy` in the store: deep-clone the source
space's order assignments and BC references into a fresh space object built
over the target mesh. -/
def World.copySpace (w : World) (srcId tgtMeshId newId : Nat) : Option World :=
  match w.findSpace srcId, w.findMesh tgtMeshId with
  | some sr, some _ =>
    some ⟨w.meshes, (newId, ⟨tgtMeshId, sr.bcs, sr.orders⟩) :: w.spaces⟩
  | _, _ => none

/-- Destroy a space object (`delete space;`). -/
def World.deleteSpace (w : World) (i : Nat) : World :=
  ⟨w.meshes, w.spaces.filter (fun p => p.1 != i)⟩

/-- Destroy a mesh object (`delete mesh;`). -/
def World.deleteMesh (w : World) (i : Nat) : World :=
  ⟨w.meshes.filter (fun p => p.1 != i), w.spaces⟩

/-- `set_element_order` on the space a handle denotes, updating only that
space object in the store. -/
def World.setElementOrder (w : World) (sid eid o : Nat) : Option World :=
  match w.spaceOf sid with
  | none => none
  | some sp =>
    match sp.set_element_order eid o with
    | .error _ => none
    | .ok sp' =>
      some ⟨w.meshes, w.spaces.map (fun p =>
        if p.1 == sid then (p.1, ⟨p.2.meshId, p.2.bcs, sp'.orders⟩) else p)⟩

/-! ### Concrete instances used to exercise the model

A triangle fan over one interior vertex: three boundary edges all carrying the
essential marker, three interior edges, three active triangles of one
material. Its space has exactly one unknown (the interior vertex), so the
driver pipeline can be executed on it end to end with the claim's example
numbers (coefficient 236, source 0, boundary value 20). -/

def fanMesh : Mesh :=
  { coords := [(0, 0), (4, 0), (0, 4), (1, 1)],
    edges := [⟨0, 1, some "Outer"⟩, ⟨1, 2, some "Outer"⟩, ⟨2, 0, some "Outer"⟩,
      ⟨0, 3, none⟩, ⟨1, 3, none⟩, ⟨2, 3, none⟩],
    elements := [⟨0, "Aluminum", [0, 1, 3], [0, 4, 3], true⟩,
      ⟨1, "Aluminum", [1, 2, 3], [1, 5, 4], true⟩,
      ⟨2, "Aluminum", [2, 0, 3], [2, 3, 5], true⟩] }

/-- Essential boundary conditions for the fan: the one boundary marker fixed
at 20 (the driver's `FIXED_BDY_TEMP`). -/
def fanBCs : EssentialBCs := ⟨[("Outer", 20)]⟩

/-- Weak form for the fan: a single constant diffusion coefficient (the
driver's `LAMBDA_AL = 236`) and zero volumetric source. -/
def fanWF : WeakForm := ⟨[("Aluminum", 236)], 0⟩

/-- The order-1 space over the fan mesh. -/
def fanSpace : H1Space := H1Space.build fanMesh fanBCs 1

/-- A freshly initialized solver over the fan problem. -/
def fanSolver : LinearSolver := LinearSolver.init fanWF fanSpace

/-- A one-element mesh with no vertices or edges registered, the smallest
input on which the order-monotonicity of the DOF counts is visible. -/
def oneElemMesh : Mesh := ⟨[], [], [⟨0, "Aluminum", [], [], true⟩]⟩

/-- The empty mesh (the spec's §3 allows a mesh to be created empty). -/
def emptyMesh : Mesh := ⟨[], [], []⟩

/-- An empty boundary-condition set. -/
def emptyBCs : EssentialBCs := ⟨[]⟩

/-- A two-mesh, one-space store from which the driver's copy-then-destroy
sequence can be replayed. -/
def demoWorld : World :=
  ⟨[(0, oneElemMesh), (1, ⟨[], [], [⟨0, "Aluminum", [], [], true⟩]⟩)],
    [(10, ⟨0, fanBCs, [1]⟩)]⟩

/-- The store after the driver's copy: the clone (handle 11) lives over the
second mesh with the source's boundary conditions and orders. -/
def demoWorldCopied : World :=
  ⟨demoWorld.meshes, (11, ⟨1, fanBCs, [1]⟩) :: demoWorld.spaces⟩

/-! ### Helper lemmas on list folds and sums -/

theorem foldl_if_count {α : Type} (q : α → Bool) (l : List α) (n : Nat) :
    l.foldl (fun c v => if q v then c else c + 1) n = n + l.countP (fun v => !(q v)) := by
  induction l generalizing n with
  | nil => simp
  | cons a l ih =>
    by_cases h : q a
    · simp [h, ih, List.countP_cons]
    · simp [h, ih, List.countP_cons]
      omega

theorem foldl_add_map {α : Type} (f : α → Nat) (l : List α) (n : Nat) :
    l.foldl (fun c x => c + f x) n = n + (l.map f).sum := by
  induction l generalizing n with
  | nil => simp
  | cons a l ih =>
    simp [ih]
    omega

/-- The partition invariant, for every space value: the numbering pass hands
out exactly one index per counted vertex, edge and bubble function. -/
theorem numdofs_partition (s : H1Space) :
    s.get_num_dofs = s.get_vertex_functions_count + s.get_edge_functions_count +
      s.get_bubble_functions_count := by
  show s.assignDofs = _
  rw [H1Space.assignDofs]
  rw [foldl_if_count (fun v => s.mesh.vertexConstrained s.bcs v)]
  rw [foldl_add_map (fun e => s.edgeDofCount e)]
  rw [foldl_add_map (fun i => s.elemBubbleCount i)]
  simp [H1Space.get_vertex_functions_count, H1Space.get_edge_functions_count,
    H1Space.get_bubble_functions_count]

theorem sum_map_add_q {α : Type} (l : List α) (f g : α → ℚ) :
    (l.map (fun x => f x + g x)).sum = (l.map f).sum + (l.map g).sum := by
  induction l with
  | nil => simp
  | cons a l ih => simp [ih]; ring

theorem sum_map_zero_q {α : Type} (l : List α) :
    (l.map (fun _ => (0 : ℚ))).sum = 0 := by
  induction l with
  | nil => simp
  | cons a l ih => simp [ih]

theorem sum_map_swap_q {α β : Type} (l1 : List α) (l2 : List β) (f : β → α → ℚ) :
    (l1.map (fun j => (l2.map (fun e => f e j)).sum)).sum =
      (l2.map (fun e => (l1.map (fun j => f e j)).sum)).sum := by
  induction l2 with
  | nil => simp [sum_map_zero_q]
  | cons e l2 ih =>
    simp only [List.map_cons, List.sum_cons]
    rw [← ih, ← sum_map_add_q]

theorem sum_filter_split_q (l : List Nat) (p : Nat → Bool) (f : Nat → ℚ) :
    ((l.filter p).map f).sum + ((l.filter (fun x => !(p x))).map f).sum = (l.map f).sum := by
  induction l with
  | nil => simp
  | cons a l ih =>
    by_cases h : p a
    · simp [h, List.filter_cons]
      rw [← ih]; ring
    · simp [h, List.filter_cons]
      rw [← ih]; ring

theorem sum_ind_zero (l : List Nat) (x : Nat) (c : ℚ) (h : ∀ j ∈ l, x ≠ j) :
    (l.map (fun j => ind x j * c)).sum = 0 := by
  induction l with
  | nil => simp
  | cons a l ih =>
    have hxa : x ≠ a := h a (List.mem_cons_self a l)
    rw [List.map_cons, List.sum_cons, ih (fun j hj => h j (List.mem_cons_of_mem a hj))]
    simp [ind, hxa]

theorem sum_ind_range (V x : Nat) (c : ℚ) (h : x < V) :
    ((List.range V).map (fun j => ind x j * c)).sum = c := by
  induction V with
  | zero => omega
  | succ V ih =>
    rw [List.range_succ, List.map_append, List.sum_append]
    by_cases hx : x < V
    · have hxV : x ≠ V := by omega
      rw [ih hx]
      simp [ind, hxV]
    · have hxV : x = V := by omega
      subst hxV
      rw [sum_ind_zero]
      · simp [ind]
      · intro j hj
        have := List.mem_range.mp hj
        omega

/-! ### Row sums of the assembled stiffness matrix -/

theorem frac3 (lam bp gp b0 b1 b2 g0 g1 g2 d : ℚ) (hb : b0 + b1 + b2 = 0)
    (hg : g0 + g1 + g2 = 0) :
    lam * (bp * b0 + gp * g0) / d + lam * (bp * b1 + gp * g1) / d +
      lam * (bp * b2 + gp * g2) / d = 0 := by
  rw [div_add_div_same, div_add_div_same]
  have h : lam * (bp * b0 + gp * g0) + lam * (bp * b1 + gp * g1) +
      lam * (bp * b2 + gp * g2) = lam * (bp * (b0 + b1 + b2) + gp * (g0 + g1 + g2)) := by
    ring
  rw [h, hb, hg]
  simp

theorem triK_rowsum (lam : ℚ) (pa pb pc : ℚ × ℚ) (p : Fin 3) :
    triK lam pa pb pc p 0 + triK lam pa pb pc p 1 + triK lam pa pb pc p 2 = 0 := by
  fin_cases p <;>
    · simp only [triK, bcoef, gcoef, Matrix.cons_val_zero, Matrix.cons_val_one,
        Matrix.cons_val_two, Matrix.head_cons, Matrix.tail_cons, Fin.isValue]
      exact frac3 _ _ _ _ _ _ _ _ _ _ (by ring) (by ring)

theorem elemMat_rowsum (wf : WeakForm) (m : Mesh) (e : Element) (i V : Nat)
    (hb : ∀ v ∈ e.vs, v < V) :
    ((List.range V).map (fun j => elemMat wf m e i j)).sum = 0 := by
  rcases hvs : e.vs with _ | ⟨a, _ | ⟨b, _ | ⟨c, _ | ⟨d, rest⟩⟩⟩⟩
  · simp only [elemMat, hvs]
    exact sum_map_zero_q _
  · simp only [elemMat, hvs]
    exact sum_map_zero_q _
  · simp only [elemMat, hvs]
    exact sum_map_zero_q _
  case cons.cons.cons.nil =>
    have ha : a < V := hb a (by rw [hvs]; simp)
    have hbb : b < V := hb b (by rw [hvs]; simp)
    have hc : c < V := hb c (by rw [hvs]; simp)
    simp only [elemMat, hvs]
    simp only [sum_map_add_q, List.sum_map_mul_left]
    rw [sum_ind_range V a _ ha, sum_ind_range V b _ hbb, sum_ind_range V c _ hc,
      sum_ind_range V a _ ha, sum_ind_range V b _ hbb, sum_ind_range V c _ hc,
      sum_ind_range V a _ ha, sum_ind_range V b _ hbb, sum_ind_range V c _ hc]
    rw [triK_rowsum, triK_rowsum, triK_rowsum]
    ring
  case cons.cons.cons.cons =>
    simp only [elemMat, hvs]
    exact sum_map_zero_q _

theorem Afull_rowsum (wf : WeakForm) (m : Mesh) (i : Nat)
    (hb : ∀ e ∈ m.elements, ∀ v ∈ e.vs, v < m.coords.length) :
    ((List.range m.coords.length).map (fun j => Afull wf m i j)).sum = 0 := by
  simp only [Afull]
  rw [sum_map_swap_q]
  have h : ∀ e ∈ m.elements,
      ((List.range m.coords.length).map (fun j =>
        if e.active then elemMat wf m e i j else 0)).sum = 0 := by
    intro e he
    by_cases hact : e.active
    · simp only [hact, if_true]
      exact elemMat_rowsum wf m e i _ (hb e he)
    · simp only [hact, if_false]
      exact sum_map_zero_q _
  rw [List.map_congr_left h, sum_map_zero_q]

theorem bfull_zero (wf : WeakForm) (m : Mesh) (i : Nat) (hsrc : wf.source = 0) :
    bfull wf m i = 0 := by
  simp only [bfull]
  have h : ∀ e ∈ m.elements, (if e.active then elemRhs wf m e i else 0) = 0 := by
    intro e _
    by_cases hact : e.active
    · simp only [hact, if_true]
      rcases hvs : e.vs with _ | ⟨a, _ | ⟨b, _ | ⟨c, _ | ⟨d, rest⟩⟩⟩⟩ <;>
        simp [elemRhs, hvs, hsrc]
    · simp [hact]
  rw [List.map_congr_left h, sum_map_zero_q]

theorem fin_sum_get (l : List Nat) (f : Nat → ℚ) :
    (∑ j : Fin l.length, f (l.get j)) = (l.map f).sum := by
  induction l with
  | nil => simp
  | cons a t ih =>
    simp [Fin.sum_univ_succ, ih]

theorem headD_filterMap_const {α : Type} (F : α → Option ℚ) (T : ℚ) (l : List α)
    (hne : l ≠ []) (hall : ∀ e ∈ l, F e = some T) : (l.filterMap F).headD 0 = T := by
  cases l with
  | nil => exact absurd rfl hne
  | cons a t =>
    rw [List.filterMap_cons, hall a (List.mem_cons_self a t)]
    simp

theorem dirichletValue_const (m : Mesh) (bcs : EssentialBCs) (T : ℚ) (v : Nat)
    (hbc : ∀ e ∈ m.edges, ∀ mk, e.marker = some mk → bcs.valueOf mk = some T)
    (hc : m.vertexConstrained bcs v = true) :
    m.dirichletValue bcs v = T := by
  unfold Mesh.vertexConstrained at hc
  rw [Bool.and_eq_true] at hc
  obtain ⟨h1, _⟩ := hc
  apply headD_filterMap_const
  · intro hnil
    rw [hnil] at h1
    simp at h1
  · intro e he
    have hmem := List.mem_filter.mp he
    rcases hmk : e.marker with _ | mk
    · exfalso
      have hp := hmem.2
      rw [Bool.and_eq_true] at hp
      rw [hmk] at hp
      simp [Option.isSome] at hp
    · simp only [edgeBCValue, hmk]
      exact hbc e hmem.1 mk hmk

theorem solveSystem_sound {n : Nat} (A : Matrix (Fin n) (Fin n) ℚ) (b x : Fin n → ℚ)
    (h : solveSystem A b = some x) : A.det ≠ 0 := by
  unfold solveSystem at h
  by_cases hd : A.det = 0
  · rw [if_pos hd] at h
    exact absurd h (by simp)
  · exact hd

theorem solveSystem_unique {n : Nat} (A : Matrix (Fin n) (Fin n) ℚ) (b y : Fin n → ℚ)
    (hdet : A.det ≠ 0) (hy : A.mulVec y = b) : solveSystem A b = some y := by
  unfold solveSystem
  rw [if_neg hdet]
  congr 1
  rw [← hy, Matrix.mulVec_mulVec, Matrix.adjugate_mul, Matrix.smul_mulVec_assoc,
    Matrix.one_mulVec, smul_smul, inv_mul_cancel₀ hdet, one_smul]

/-- The uniform temperature field solves the reduced system exactly: with zero
source and every boundary value fixed at `T`, the lifted right-hand side is
precisely what the stiffness matrix does to the constant vector, because every
full row of the assembled matrix sums to zero. -/
theorem reduced_const_solution (wf : WeakForm) (m : Mesh) (bcs : EssentialBCs) (T : ℚ)
    (hb : ∀ e ∈ m.elements, ∀ v ∈ e.vs, v < m.coords.length)
    (hsrc : wf.source = 0)
    (hbc : ∀ e ∈ m.edges, ∀ mk, e.marker = some mk → bcs.valueOf mk = some T) :
    (reducedMatrix wf m bcs).mulVec (fun _ => T) = reducedRhs wf m bcs := by
  funext i
  have hsplit := sum_filter_split_q (List.range m.coords.length)
    (fun v => m.vertexConstrained bcs v)
    (fun v => Afull wf m ((m.freeVerts bcs).get i) v)
  rw [Afull_rowsum wf m _ hb] at hsplit
  have hLHS : (reducedMatrix wf m bcs).mulVec (fun _ => T) i =
      ((m.freeVerts bcs).map (fun v => Afull wf m ((m.freeVerts bcs).get i) v)).sum * T := by
    simp only [Matrix.mulVec, Matrix.dotProduct, reducedMatrix, Matrix.of_apply]
    rw [← List.sum_map_mul_right]
    exact fin_sum_get (m.freeVerts bcs)
      (fun v => Afull wf m ((m.freeVerts bcs).get i) v * T)
  have hRHS : reducedRhs wf m bcs i =
      0 - ((m.constrainedVerts bcs).map
        (fun v => Afull wf m ((m.freeVerts bcs).get i) v)).sum * T := by
    unfold reducedRhs
    rw [bfull_zero wf m _ hsrc]
    congr 1
    rw [← List.sum_map_mul_right]
    apply congrArg List.sum
    apply List.map_congr_left
    intro c hc
    have hcon : m.vertexConstrained bcs c = true := (List.mem_filter.mp hc).2
    rw [dirichletValue_const m bcs T c hbc hcon]
  rw [hLHS, hRHS]
  have hsplit' : ((m.constrainedVerts bcs).map
      (fun v => Afull wf m ((m.freeVerts bcs).get i) v)).sum +
      ((m.freeVerts bcs).map
        (fun v => Afull wf m ((m.freeVerts bcs).get i) v)).sum = 0 := hsplit
  have hfc : ((m.freeVerts bcs).map
      (fun v => Afull wf m ((m.freeVerts bcs).get i) v)).sum =
      -((m.constrainedVerts bcs).map
        (fun v => Afull wf m ((m.freeVerts bcs).get i) v)).sum := by
    linarith [hsplit']
  rw [hfc]
  ring

/-- Inversion of a successful solve: the solver really solved the reduced
system, the stored vector is its solution, and the DOF-count guard held. -/
theorem solve_ok_inversion (ls ls' : LinearSolver) (h : ls.solve = .ok ls') :
    ∃ x, solveSystem (reducedMatrix ls.wf ls.space.mesh ls.space.bcs)
        (reducedRhs ls.wf ls.space.mesh ls.space.bcs) = some x ∧
      ls' = ⟨ls.wf, ls.space, some (List.ofFn x)⟩ ∧
      ls.space.get_num_dofs = (ls.space.mesh.freeVerts ls.space.bcs).length := by
  unfold LinearSolver.solve at h
  split at h
  · exact absurd h (by simp)
  · split at h
    · split at h
      · exact absurd h (by simp)
      case _ x hx =>
        refine ⟨x, hx, ?_, ?_⟩
        · cases h
          rfl
        · next hguard _ =>
          simpa using hguard
    · exact absurd h (by simp)

/-! ### Monotonicity of the DOF counts in the default order -/

theorem foldl_min_const (l : List Nat) (c : Nat) (h : ∀ x ∈ l, x = c) :
    l.foldl Nat.min c = c := by
  induction l with
  | nil => rfl
  | cons x t ih =>
    have hx : x = c := h x (List.mem_cons_self x t)
    subst hx
    have hxx : Nat.min x x = x := by simp [Nat.min_def]
    rw [List.foldl_cons, hxx]
    exact ih (fun y hy => h y (List.mem_cons_of_mem x hy))

theorem build_orderAt (m : Mesh) (bcs : EssentialBCs) (p i : Nat)
    (h : i < m.elements.length) : (H1Space.build m bcs p).orderAt i = p := by
  unfold H1Space.orderAt H1Space.build
  simp [List.getD_eq_getElem?_getD, List.getElem?_map, List.getElem?_replicate, h]

theorem build_effOrder (m : Mesh) (bcs : EssentialBCs) (p eidx : Nat) :
    (H1Space.build m bcs p).effectiveEdgeOrder eidx = 0 ∨
      (H1Space.build m bcs p).effectiveEdgeOrder eidx = p := by
  unfold H1Space.effectiveEdgeOrder
  cases hl : (H1Space.build m bcs p).edgeAdjacentOrders eidx with
  | nil => left; rfl
  | cons o rest =>
    right
    have hall : ∀ x ∈ (H1Space.build m bcs p).edgeAdjacentOrders eidx, x = p := by
      intro x hx
      unfold H1Space.edgeAdjacentOrders at hx
      obtain ⟨i, hi, hxi⟩ := List.mem_map.mp hx
      have hilt : i < m.elements.length := List.mem_range.mp (List.mem_filter.mp hi).1
      rw [← hxi]
      exact build_orderAt m bcs p i hilt
    have ho : o = p := hall o (by rw [hl]; exact List.mem_cons_self o rest)
    subst ho
    exact foldl_min_const rest o (fun x hx => hall x (by rw [hl]; exact List.mem_cons_of_mem o hx))

theorem build_adjacent_same (m : Mesh) (bcs : EssentialBCs) (p q eidx : Nat) :
    ((H1Space.build m bcs p).edgeAdjacentOrders eidx = [] ↔
      (H1Space.build m bcs q).edgeAdjacentOrders eidx = []) := by
  unfold H1Space.edgeAdjacentOrders
  simp [H1Space.build]

theorem build_edgeDofCount (m : Mesh) (bcs : EssentialBCs) (p eidx : Nat) :
    (H1Space.build m bcs p).edgeDofCount eidx =
      if bcs.essentialMarker ((m.edges.getD eidx ⟨0, 0, none⟩).marker) then 0
      else (H1Space.build m bcs p).effectiveEdgeOrder eidx - 1 := rfl

theorem build_edgeDofCount_mono (m : Mesh) (bcs : EssentialBCs) (eidx : Nat) :
    (H1Space.build m bcs 1).edgeDofCount eidx ≤ (H1Space.build m bcs 2).edgeDofCount eidx := by
  rw [build_edgeDofCount m bcs 1 eidx, build_edgeDofCount m bcs 2 eidx]
  by_cases hmk : bcs.essentialMarker ((m.edges.getD eidx ⟨0, 0, none⟩).marker) = true
  · rw [if_pos hmk, if_pos hmk]
  · rw [if_neg hmk, if_neg hmk]
    rcases build_effOrder m bcs 1 eidx with h1 | h1 <;>
      rcases build_effOrder m bcs 2 eidx with h2 | h2 <;> rw [h1, h2] <;> omega

theorem build_edge_count (m : Mesh) (bcs : EssentialBCs) (p : Nat) :
    (H1Space.build m bcs p).get_edge_functions_count =
      ((List.range m.edges.length).map (H1Space.build m bcs p).edgeDofCount).sum := rfl

theorem build_bubble_count (m : Mesh) (bcs : EssentialBCs) (p : Nat) :
    (H1Space.build m bcs p).get_bubble_functions_count =
      ((List.range m.elements.length).map (H1Space.build m bcs p).elemBubbleCount).sum := rfl

theorem build1_bubble (m : Mesh) (bcs : EssentialBCs) :
    (H1Space.build m bcs 1).get_bubble_functions_count = 0 := by
  rw [build_bubble_count]
  have h : ∀ i ∈ List.range m.elements.length,
      (H1Space.build m bcs 1).elemBubbleCount i = 0 := by
    intro i hi
    have hlt : i < m.elements.length := List.mem_range.mp hi
    unfold H1Space.elemBubbleCount
    rw [build_orderAt m bcs 1 i hlt]
    by_cases hact : ((H1Space.build m bcs 1).mesh.elements.getD i default).active = true
    · rw [if_pos hact]
      rfl
    · rw [if_neg hact]
  rw [List.map_congr_left h]
  simp

theorem build2_bubble_pos (m : Mesh) (bcs : EssentialBCs)
    (h : ∃ e ∈ m.elements, e.active = true) :
    1 ≤ (H1Space.build m bcs 2).get_bubble_functions_count := by
  obtain ⟨e, he, hact⟩ := h
  obtain ⟨i, hlt, hei⟩ := List.mem_iff_getElem.mp he
  rw [build_bubble_count]
  have hval : (H1Space.build m bcs 2).elemBubbleCount i = 1 := by
    unfold H1Space.elemBubbleCount
    rw [build_orderAt m bcs 2 i hlt]
    have hgetd : ((H1Space.build m bcs 2).mesh.elements.getD i default) = e := by
      show m.elements.getD i default = e
      rw [List.getD_eq_getElem?_getD, List.getElem?_eq_getElem hlt]
      simpa using hei
    rw [hgetd, hact]
    rfl
  have hmem : (1 : Nat) ∈ (List.range m.elements.length).map
      (H1Space.build m bcs 2).elemBubbleCount := by
    rw [← hval]
    exact List.mem_map_of_mem _ (List.mem_range.mpr hlt)
  exact List.single_le_sum (fun x _ => Nat.zero_le x) 1 hmem

/-! ### Store lemmas for clone independence -/

theorem find?_filter_ne_key {α : Type} (l : List (Nat × α)) (k d : Nat) (hk : k ≠ d) :
    (l.filter (fun p => p.1 != d)).find? (fun p => p.1 == k) =
      l.find? (fun p => p.1 == k) := by
  induction l with
  | nil => rfl
  | cons a t ih =>
    by_cases hak : a.1 = k
    · have hb1 : (a.1 != d) = true := by simpa [hak] using hk
      have hb2 : (a.1 == k) = true := by simp [hak]
      simp [hb1, hb2]
    · have hb2 : (a.1 == k) = false := by simp [hak]
      by_cases had : a.1 = d
      · have hb1 : (a.1 != d) = false := by simp [had]
        simp [hb1, hb2, ih]
      · have hb1 : (a.1 != d) = true := by simp [had]
        simp [hb1, hb2, ih]

theorem find?_map_upd_ne (l : List (Nat × SpaceRef)) (sid k : Nat) (g : SpaceRef → SpaceRef)
    (hk : k ≠ sid) :
    (l.map (fun p => if p.1 == sid then (p.1, g p.2) else p)).find? (fun p => p.1 == k) =
      l.find? (fun p => p.1 == k) := by
  induction l with
  | nil => rfl
  | cons a t ih =>
    rw [List.map_cons]
    by_cases has : a.1 = sid
    · have hb1 : (a.1 == sid) = true := by simp [has]
      rw [if_pos hb1]
      rw [List.find?_cons_of_neg, List.find?_cons_of_neg, ih]
      · simp [has]
        omega
      · simp [has]
        omega
    · have hb1 : ¬ ((a.1 == sid) = true) := by simp [has]
      rw [if_neg hb1]
      by_cases hak : a.1 = k
      · have hb2 : (a.1 == k) = true := by simp [hak]
        rw [List.find?_cons_of_pos, List.find?_cons_of_pos]
        · exact hb2
        · exact hb2
      · have hb2 : ¬ ((a.1 == k) = true) := by simp [hak]
        rw [List.find?_cons_of_neg, List.find?_cons_of_neg, ih]
        · exact hb2
        · exact hb2

theorem find?_map_upd_self (l : List (Nat × SpaceRef)) (c : Nat) (g : SpaceRef → SpaceRef) :
    (l.map (fun p => if p.1 == c then (p.1, g p.2) else p)).find? (fun p => p.1 == c) =
      (l.find? (fun p => p.1 == c)).map (fun p => (p.1, g p.2)) := by
  induction l with
  | nil => rfl
  | cons a t ih =>
    rw [List.map_cons]
    by_cases hac : a.1 = c
    · have hb1 : (a.1 == c) = true := by simp [hac]
      rw [if_pos hb1]
      rw [List.find?_cons_of_pos, List.find?_cons_of_pos]
      · rfl
      · exact hb1
      · exact hb1
    · have hb1 : ¬ ((a.1 == c) = true) := by simp [hac]
      rw [if_neg hb1]
      rw [List.find?_cons_of_neg, List.find?_cons_of_neg, ih]
      · exact hb1
      · exact hb1

theorem copySpace_inversion (w : World) (srcId tgtMeshId newId : Nat) (w1 : World)
    (h : w.copySpace srcId tgtMeshId newId = some w1) :
    ∃ sr, w.findSpace srcId = some sr ∧
      w1 = ⟨w.meshes, (newId, ⟨tgtMeshId, sr.bcs, sr.orders⟩) :: w.spaces⟩ := by
  unfold World.copySpace at h
  split at h
  case _ sr mm hsr hmm =>
    exact ⟨sr, hsr, (Option.some.inj h).symm⟩
  case _ =>
    exact absurd h (by simp)

theorem setElementOrder_inversion (w : World) (sid eid o : Nat) (w2 : World)
    (h : w.setElementOrder sid eid o = some w2) :
    ∃ sp sp', w.spaceOf sid = some sp ∧ sp.set_element_order eid o = .ok sp' ∧
      w2 = ⟨w.meshes, w.spaces.map (fun p =>
        if p.1 == sid then (p.1, ⟨p.2.meshId, p.2.bcs, sp'.orders⟩) else p)⟩ := by
  unfold World.setElementOrder at h
  split at h
  · exact absurd h (by simp)
  case _ sp hsp =>
    split at h
    · exact absurd h (by simp)
    case _ sp' hsp' =>
      exact ⟨sp, sp', hsp, hsp', (Option.some.inj h).symm⟩

/-! ### Executing the pipeline on the fan problem -/

/-- Solving the fan problem succeeds and stores the uniform vector `[20]`. -/
theorem fan_solve_eval : fanSolver.solve = .ok ⟨fanWF, fanSpace, some [20]⟩ := by
  have hdet : (reducedMatrix fanSolver.wf fanSolver.space.mesh fanSolver.space.bcs).det
      = 1416 := by
    rw [Matrix.det_fin_one]
    show Afull fanWF fanMesh 3 3 = 1416
    norm_num [Afull, elemMat, triK, bcoef, gcoef, area2, ind, fanWF, fanMesh,
      WeakForm.coeffOf]
  have hmul : (reducedMatrix fanSolver.wf fanSolver.space.mesh fanSolver.space.bcs).mulVec
      (fun _ => (20 : ℚ)) =
      reducedRhs fanSolver.wf fanSolver.space.mesh fanSolver.space.bcs :=
    reduced_const_solution _ _ _ 20 (by decide) rfl (by decide)
  have hsolve : solveSystem
      (reducedMatrix fanSolver.wf fanSolver.space.mesh fanSolver.space.bcs)
      (reducedRhs fanSolver.wf fanSolver.space.mesh fanSolver.space.bcs) =
      some (fun _ => (20 : ℚ)) :=
    solveSystem_unique _ _ _ (by rw [hdet]; norm_num) hmul
  unfold LinearSolver.solve
  split
  · next h => exact absurd h (by decide)
  · split
    · rw [hsolve]
      rfl
    · next h => exact absurd (by decide) h

/-! ### The claims -/

/-- C1: for every FunctionSpace — hence after any sequence of construction,
copy and `set_element_order` operations, all of which produce plain `H1Space`
values — `get_num_dofs()` equals the sum of the vertex, edge and bubble
function counts. -/
theorem C1_dof_partition_invariant (s : H1Space) :
    s.get_num_dofs = s.get_vertex_functions_count + s.get_edge_functions_count +
      s.get_bubble_functions_count :=
  numdofs_partition s

/-- C4: copying a space onto a mesh structurally identical to its own
succeeds and preserves `get_num_dofs` and every per-element order. -/
theorem C4_copy_preserves (S : H1Space) (M : Mesh) (h : M = S.mesh) :
    ∃ S', H1Space.copy S M = .ok S' ∧ S'.get_num_dofs = S.get_num_dofs ∧
      S'.orders = S.orders := by
  subst h
  have hcompat : Mesh.compatible S.mesh S.mesh = true := by
    unfold Mesh.compatible
    simp
  refine ⟨⟨S.mesh, S.bcs, S.orders⟩, ?_, ?_, rfl⟩
  · unfold H1Space.copy
    rw [if_pos hcompat]
  · rfl

/-- Witness for C4 at the fan space. -/
theorem C4_copy_preserves_witness :
    fanMesh = fanSpace.mesh ∧
      ∃ S', H1Space.copy fanSpace fanMesh = .ok S' ∧
        S'.get_num_dofs = fanSpace.get_num_dofs ∧ S'.orders = fanSpace.orders :=
  ⟨rfl, C4_copy_preserves fanSpace fanMesh rfl⟩

/-- C6: refining with a region name that matches no active element fails with
`InvalidRegionError`; no refined mesh is produced, so the caller's mesh is
untouched (atomicity). -/
theorem C6_refine_unknown_region (m : Mesh) (names : List String) (levels : Nat)
    (nm : String) (h1 : nm ∈ names)
    (h2 : ∀ e ∈ m.elements, ¬(e.active = true ∧ e.material = nm)) :
    m.refine_in_areas names levels = .error .InvalidRegionError := by
  unfold Mesh.refine_in_areas
  rw [if_neg]
  intro hall
  rw [List.all_eq_true] at hall
  have h3 := hall nm h1
  rw [List.any_eq_true] at h3
  obtain ⟨e, he, hp⟩ := h3
  rw [Bool.and_eq_true] at hp
  exact h2 e he ⟨hp.1, by simpa using hp.2⟩

/-- Witness for C6: the one-element aluminum mesh has no copper region. -/
theorem C6_refine_unknown_region_witness :
    ("Copper" ∈ ["Copper"] ∧
      ∀ e ∈ oneElemMesh.elements, ¬(e.active = true ∧ e.material = "Copper")) ∧
      oneElemMesh.refine_in_areas ["Copper"] 1 = .error .InvalidRegionError :=
  ⟨⟨by decide, by decide⟩,
    C6_refine_unknown_region oneElemMesh ["Copper"] 1 "Copper" (by decide) (by decide)⟩

/-- C7: binding a coefficient vector of the wrong length fails with
`DimensionMismatchError` and produces no bound solution. -/
theorem C7_vector_to_solution_mismatch (v : List ℚ) (s : H1Space)
    (h : v.length ≠ s.get_num_dofs) :
    Solution.vector_to_solution v s = .error .DimensionMismatchError := by
  unfold Solution.vector_to_solution
  rw [if_neg]
  simpa using h

/-- Witness for C7: a length-2 vector against the one-DOF fan space. -/
theorem C7_vector_to_solution_mismatch_witness :
    ([0, 0] : List ℚ).length ≠ fanSpace.get_num_dofs ∧
      Solution.vector_to_solution [0, 0] fanSpace = .error .DimensionMismatchError :=
  ⟨by decide, C7_vector_to_solution_mismatch [0, 0] fanSpace (by decide)⟩

/-- C9 counterexample: on the empty mesh (a mesh may be created empty, §3)
both default orders give zero DOFs, so raising the order from 1 to 2 does not
strictly increase `get_num_dofs`. -/
theorem C9_counterexample :
    ¬((H1Space.build emptyMesh emptyBCs 1).get_num_dofs <
      (H1Space.build emptyMesh emptyBCs 2).get_num_dofs) := by
  decide

/-- C9 amended: on every mesh, the vertex function count never decreases when
the default order is raised from 1 to 2, and on every mesh with at least one
active element the raise strictly increases `get_num_dofs`. -/
theorem C9_amended_monotonicity (m : Mesh) (bcs : EssentialBCs) :
    ((∃ e ∈ m.elements, e.active = true) →
      (H1Space.build m bcs 1).get_num_dofs < (H1Space.build m bcs 2).get_num_dofs) ∧
      (H1Space.build m bcs 1).get_vertex_functions_count ≤
        (H1Space.build m bcs 2).get_vertex_functions_count := by
  constructor
  · intro h
    rw [numdofs_partition, numdofs_partition]
    have hv : (H1Space.build m bcs 1).get_vertex_functions_count =
        (H1Space.build m bcs 2).get_vertex_functions_count := rfl
    have he : (H1Space.build m bcs 1).get_edge_functions_count ≤
        (H1Space.build m bcs 2).get_edge_functions_count := by
      rw [build_edge_count, build_edge_count]
      exact List.sum_le_sum (fun i _ => build_edgeDofCount_mono m bcs i)
    have hb1 := build1_bubble m bcs
    have hb2 := build2_bubble_pos m bcs h
    omega
  · exact le_of_eq rfl

/-- Witness for the amended C9 at the one-element mesh. -/
theorem C9_amended_monotonicity_witness :
    (∃ e ∈ oneElemMesh.elements, e.active = true) ∧
      (H1Space.build oneElemMesh emptyBCs 1).get_num_dofs <
        (H1Space.build oneElemMesh emptyBCs 2).get_num_dofs ∧
      (H1Space.build oneElemMesh emptyBCs 1).get_vertex_functions_count ≤
        (H1Space.build oneElemMesh emptyBCs 2).get_vertex_functions_count :=
  ⟨by decide, (C9_amended_monotonicity oneElemMesh emptyBCs).1 (by decide),
    (C9_amended_monotonicity oneElemMesh emptyBCs).2⟩

/-- C8: `get_sln_vector()` on a freshly constructed solver fails with
`NotSolvedError`; after a successful `solve()` it returns a vector. -/
theorem C8_sln_vector_contract (wf : WeakForm) (s : H1Space) (ls ls' : LinearSolver)
    (h : ls.solve = .ok ls') :
    (LinearSolver.init wf s).get_sln_vector = .error .NotSolvedError ∧
      ∃ v, ls'.get_sln_vector = .ok v := by
  constructor
  · rfl
  · obtain ⟨x, _, hls', _⟩ := solve_ok_inversion ls ls' h
    subst hls'
    exact ⟨List.ofFn x, rfl⟩

/-- Witness for C8: the fan solver solves successfully. -/
theorem C8_sln_vector_contract_witness :
    fanSolver.solve = .ok ⟨fanWF, fanSpace, some [20]⟩ ∧
      (LinearSolver.init fanWF fanSpace).get_sln_vector = .error .NotSolvedError ∧
      ∃ v, (⟨fanWF, fanSpace, some [20]⟩ : LinearSolver).get_sln_vector = .ok v :=
  ⟨fan_solve_eval, C8_sln_vector_contract fanWF fanSpace fanSolver _ fan_solve_eval⟩

/-- C10: after a successful solve the stored vector has length exactly
`get_num_dofs` of the solver's space, so `vector_to_solution` on it with the
same space succeeds (never a `DimensionMismatchError`). -/
theorem C10_sln_vector_length (ls ls' : LinearSolver) (h : ls.solve = .ok ls') :
    ∃ v, ls'.get_sln_vector = .ok v ∧ v.length = ls.space.get_num_dofs ∧
      ∃ sol, Solution.vector_to_solution v ls.space = .ok sol := by
  obtain ⟨x, _, hls', hn⟩ := solve_ok_inversion ls ls' h
  subst hls'
  refine ⟨List.ofFn x, rfl, ?_, ?_⟩
  · rw [List.length_ofFn]
    exact hn.symm
  · refine ⟨⟨some (List.ofFn x)⟩, ?_⟩
    unfold Solution.vector_to_solution
    rw [if_pos]
    simp [List.length_ofFn, hn]

/-- Witness for C10 at the fan problem. -/
theorem C10_sln_vector_length_witness :
    fanSolver.solve = .ok ⟨fanWF, fanSpace, some [20]⟩ ∧
      ∃ v, (⟨fanWF, fanSpace, some [20]⟩ : LinearSolver).get_sln_vector = .ok v ∧
        v.length = fanSolver.space.get_num_dofs ∧
        ∃ sol, Solution.vector_to_solution v fanSolver.space = .ok sol :=
  ⟨fan_solve_eval, C10_sln_vector_length fanSolver _ fan_solve_eval⟩

/-- C3: after an assembled and solved system, lifting the solution vector
back over the constrained DOFs reproduces the prescribed Dirichlet value
exactly at every constrained DOF. -/
theorem C3_dirichlet_lift_exact (ls ls' : LinearSolver) (xv : List ℚ) (v : Nat)
    (hs : ls.solve = .ok ls') (hv : ls'.get_sln_vector = .ok xv)
    (hc : ls.space.mesh.vertexConstrained ls.space.bcs v = true) :
    liftedSolution ls.space xv v = ls.space.mesh.dirichletValue ls.space.bcs v := by
  unfold liftedSolution
  rw [if_pos hc]

/-- Witness for C3: vertex 0 of the fan is constrained and lifts to its
Dirichlet value. -/
theorem C3_dirichlet_lift_exact_witness :
    fanSolver.solve = .ok ⟨fanWF, fanSpace, some [20]⟩ ∧
      (⟨fanWF, fanSpace, some [20]⟩ : LinearSolver).get_sln_vector = .ok [20] ∧
      fanSolver.space.mesh.vertexConstrained fanSolver.space.bcs 0 = true ∧
      liftedSolution fanSolver.space [20] 0 =
        fanSolver.space.mesh.dirichletValue fanSolver.space.bcs 0 :=
  ⟨fan_solve_eval, rfl, by decide,
    C3_dirichlet_lift_exact fanSolver _ [20] 0 fan_solve_eval rfl (by decide)⟩

/-- C2: on any mesh, assembling with one constant diffusion coefficient and
zero source, with every boundary marker fixed to the same constant `T`, and
solving, yields the uniform solution: the solution vector is constantly `T`
and the lifted nodal field equals `T` at every vertex DOF, interior ones
included. -/
theorem C2_uniform_temperature (m : Mesh) (bcs : EssentialBCs) (wf : WeakForm)
    (lam T : ℚ) (ls' : LinearSolver)
    (hb : ∀ e ∈ m.elements, ∀ v ∈ e.vs, v < m.coords.length)
    (hlam : ∀ e ∈ m.elements, e.active = true → wf.coeffOf e.material = some lam)
    (hsrc : wf.source = 0)
    (hbc : ∀ e ∈ m.edges, ∀ mk, e.marker = some mk → bcs.valueOf mk = some T)
    (hsolve : (LinearSolver.init wf (H1Space.build m bcs 1)).solve = .ok ls') :
    ls'.get_sln_vector = .ok (List.replicate (H1Space.build m bcs 1).get_num_dofs T) ∧
      ∀ v, v < m.coords.length →
        liftedSolution (H1Space.build m bcs 1)
          (List.replicate (H1Space.build m bcs 1).get_num_dofs T) v = T := by
  obtain ⟨x, hx, hls', hn⟩ := solve_ok_inversion _ ls' hsolve
  have hx' : solveSystem (reducedMatrix wf m bcs) (reducedRhs wf m bcs) = some x := hx
  have hn' : (H1Space.build m bcs 1).get_num_dofs = (m.freeVerts bcs).length := hn
  have hdet : (reducedMatrix wf m bcs).det ≠ 0 := solveSystem_sound _ _ _ hx'
  have huni : solveSystem (reducedMatrix wf m bcs) (reducedRhs wf m bcs) =
      some (fun _ => T) :=
    solveSystem_unique _ _ _ hdet (reduced_const_solution wf m bcs T hb hsrc hbc)
  have hxT : x = fun _ => T := Option.some.inj (hx'.symm.trans huni)
  constructor
  · rw [hls']
    show Except.ok (List.ofFn x) = _
    rw [hxT, List.ofFn_const, hn']
    rfl
  · intro v hv
    unfold liftedSolution
    by_cases hc : (H1Space.build m bcs 1).mesh.vertexConstrained
        (H1Space.build m bcs 1).bcs v = true
    · rw [if_pos hc]
      exact dirichletValue_const m bcs T v hbc hc
    · rw [if_neg hc]
      have hfree : v ∈ m.freeVerts bcs := by
        unfold Mesh.freeVerts
        rw [List.mem_filter]
        refine ⟨List.mem_range.mpr hv, ?_⟩
        simpa using hc
      have hidx : ((H1Space.build m bcs 1).mesh.freeVerts
          (H1Space.build m bcs 1).bcs).indexOf v < (m.freeVerts bcs).length :=
        List.indexOf_lt_length.mpr hfree
      rw [hn', List.getD_eq_getElem?_getD, List.getElem?_replicate]
      simp [hidx]

/-- Witness for C2 at the fan problem: coefficient 236, source 0, boundary
value 20, and every DOF of the solution equals 20. -/
theorem C2_uniform_temperature_witness :
    (LinearSolver.init fanWF (H1Space.build fanMesh fanBCs 1)).solve =
      .ok ⟨fanWF, fanSpace, some [20]⟩ ∧
      (⟨fanWF, fanSpace, some [20]⟩ : LinearSolver).get_sln_vector =
        .ok (List.replicate (H1Space.build fanMesh fanBCs 1).get_num_dofs 20) ∧
      ∀ v, v < fanMesh.coords.length →
        liftedSolution (H1Space.build fanMesh fanBCs 1)
          (List.replicate (H1Space.build fanMesh fanBCs 1).get_num_dofs 20) v = 20 :=
  ⟨fan_solve_eval, C2_uniform_temperature fanMesh fanBCs fanWF 236 20 _
    (by decide) (by decide) rfl (by decide) fan_solve_eval⟩

/-- Mutating one space in the store leaves every other space handle — its
stored record and its full denoted space — unchanged. -/
theorem setElementOrder_other_unchanged (u : World) (cid eid o : Nat) (w2 : World)
    (k : Nat) (hk : k ≠ cid) (h : u.setElementOrder cid eid o = some w2) :
    w2.findSpace k = u.findSpace k ∧ w2.spaceOf k = u.spaceOf k := by
  obtain ⟨sp, sp', hsp, hsp', hw2⟩ := setElementOrder_inversion u cid eid o w2 h
  subst hw2
  have hfs : World.findSpace ⟨u.meshes, u.spaces.map (fun p =>
      if p.1 == cid then (p.1, ⟨p.2.meshId, p.2.bcs, sp'.orders⟩) else p)⟩ k =
      u.findSpace k := by
    unfold World.findSpace
    exact congrArg (Option.map (fun p => p.2))
      (find?_map_upd_ne u.spaces cid k (fun srf => ⟨srf.meshId, srf.bcs, sp'.orders⟩) hk)
  refine ⟨hfs, ?_⟩
  unfold World.spaceOf
  rw [hfs]
  rfl

/-- Deleting another space and another mesh from the store leaves the space a
handle denotes unchanged. -/
theorem delete_other_spaceOf (u : World) (sid mid cid : Nat) (sr : SpaceRef)
    (hfs : u.findSpace cid = some sr) (h1 : cid ≠ sid) (h2 : sr.meshId ≠ mid) :
    ((u.deleteSpace sid).deleteMesh mid).spaceOf cid = u.spaceOf cid := by
  have hfs' : ((u.deleteSpace sid).deleteMesh mid).findSpace cid = u.findSpace cid := by
    unfold World.findSpace World.deleteSpace World.deleteMesh
    exact congrArg (Option.map (fun p => p.2)) (find?_filter_ne_key u.spaces cid sid h1)
  have hfm : ((u.deleteSpace sid).deleteMesh mid).findMesh sr.meshId =
      u.findMesh sr.meshId := by
    unfold World.findMesh World.deleteSpace World.deleteMesh
    exact congrArg (Option.map (fun p => p.2)) (find?_filter_ne_key u.meshes sr.meshId mid h2)
  unfold World.spaceOf
  rw [hfs', hfs]
  show (match ((u.deleteSpace sid).deleteMesh mid).findMesh sr.meshId with
    | none => none
    | some mm => some (⟨mm, sr.bcs, sr.orders⟩ : H1Space)) =
    match u.findMesh sr.meshId with
    | none => none
    | some mm => some (⟨mm, sr.bcs, sr.orders⟩ : H1Space)
  rw [hfm]

/-- Computation rule for `setElementOrder` as a single top-level match. -/
theorem setElementOrder_eq (w : World) (cid eid o : Nat) :
    w.setElementOrder cid eid o =
      match (w.spaceOf cid).bind (fun sp => (sp.set_element_order eid o).toOption) with
      | none => none
      | some sp' => some ⟨w.meshes, w.spaces.map (fun p =>
          if p.1 == cid then (p.1, ⟨p.2.meshId, p.2.bcs, sp'.orders⟩) else p)⟩ := by
  unfold World.setElementOrder
  cases w.spaceOf cid with
  | none => rfl
  | some sp =>
    show (match sp.set_element_order eid o with
      | .error _ => none
      | .ok sp' => some (⟨w.meshes, w.spaces.map (fun p : Nat × SpaceRef =>
          if p.1 == cid then (p.1, ⟨p.2.meshId, p.2.bcs, sp'.orders⟩) else p)⟩ : World)) =
      match (sp.set_element_order eid o).toOption with
      | none => none
      | some sp' => some (⟨w.meshes, w.spaces.map (fun p : Nat × SpaceRef =>
          if p.1 == cid then (p.1, ⟨p.2.meshId, p.2.bcs, sp'.orders⟩) else p)⟩ : World)
    cases sp.set_element_order eid o with
    | error e => rfl
    | ok sp' => rfl

/-- Destroying another space and another mesh does not change what
`set_element_order` on a clone does to the clone. -/
theorem delete_other_setOrder (u : World) (sid mid cid : Nat) (sr : SpaceRef)
    (hfs : u.findSpace cid = some sr) (h1 : cid ≠ sid) (h2 : sr.meshId ≠ mid)
    (eid o : Nat) :
    (((u.deleteSpace sid).deleteMesh mid).setElementOrder cid eid o).bind
        (fun ww => ww.spaceOf cid) =
      (u.setElementOrder cid eid o).bind (fun ww => ww.spaceOf cid) := by
  have hso : ((u.deleteSpace sid).deleteMesh mid).spaceOf cid = u.spaceOf cid :=
    delete_other_spaceOf u sid mid cid sr hfs h1 h2
  have hfs0 : (u.spaces.find? (fun p => p.1 == cid)).map (fun p => p.2) = some sr := hfs
  obtain ⟨pr, hpr, hpr2⟩ := Option.map_eq_some'.mp hfs0
  rw [setElementOrder_eq, setElementOrder_eq, hso]
  cases hres : (u.spaceOf cid).bind (fun sp => (sp.set_element_order eid o).toOption) with
  | none => rfl
  | some sp' =>
    show World.spaceOf ⟨u.meshes.filter (fun p => p.1 != mid),
        (u.spaces.filter (fun p => p.1 != sid)).map (fun p =>
          if p.1 == cid then (p.1, ⟨p.2.meshId, p.2.bcs, sp'.orders⟩) else p)⟩ cid =
      World.spaceOf ⟨u.meshes, u.spaces.map (fun p =>
          if p.1 == cid then (p.1, ⟨p.2.meshId, p.2.bcs, sp'.orders⟩) else p)⟩ cid
    have hself := find?_map_upd_self (u.spaces.filter (fun p => p.1 != sid)) cid
      (fun srf => ⟨srf.meshId, srf.bcs, sp'.orders⟩)
    have hself2 := find?_map_upd_self u.spaces cid
      (fun srf => ⟨srf.meshId, srf.bcs, sp'.orders⟩)
    have hfsL : World.findSpace ⟨u.meshes.filter (fun p => p.1 != mid),
        (u.spaces.filter (fun p => p.1 != sid)).map (fun p =>
          if p.1 == cid then (p.1, ⟨p.2.meshId, p.2.bcs, sp'.orders⟩) else p)⟩ cid =
        some ⟨sr.meshId, sr.bcs, sp'.orders⟩ := by
      unfold World.findSpace
      rw [hself, find?_filter_ne_key u.spaces cid sid h1, hpr]
      simp [hpr2]
    have hfsR : World.findSpace ⟨u.meshes, u.spaces.map (fun p =>
        if p.1 == cid then (p.1, ⟨p.2.meshId, p.2.bcs, sp'.orders⟩) else p)⟩ cid =
        some ⟨sr.meshId, sr.bcs, sp'.orders⟩ := by
      unfold World.findSpace
      rw [hself2, hpr]
      simp [hpr2]
    have hfmL : World.findMesh ⟨u.meshes.filter (fun p => p.1 != mid),
        (u.spaces.filter (fun p => p.1 != sid)).map (fun p =>
          if p.1 == cid then (p.1, ⟨p.2.meshId, p.2.bcs, sp'.orders⟩) else p)⟩ sr.meshId =
        u.findMesh sr.meshId := by
      unfold World.findMesh
      exact congrArg (Option.map (fun p => p.2))
        (find?_filter_ne_key u.meshes sr.meshId mid h2)
    unfold World.spaceOf
    rw [hfsL, hfsR]
    show (match World.findMesh ⟨u.meshes.filter (fun p => p.1 != mid),
        (u.spaces.filter (fun p => p.1 != sid)).map (fun p =>
          if p.1 == cid then (p.1, ⟨p.2.meshId, p.2.bcs, sp'.orders⟩) else p)⟩ sr.meshId with
      | none => none
      | some mm => some (⟨mm, sr.bcs, sp'.orders⟩ : H1Space)) =
      match u.findMesh sr.meshId with
      | none => none
      | some mm => some (⟨mm, sr.bcs, sp'.orders⟩ : H1Space)
    rw [hfmL]

/-- C5: a space cloned in the store onto a different mesh is fully independent
of its source: mutating the clone's per-element orders leaves the source
space's stored record and denoted space untouched, and destroying the source
space and its mesh changes neither what the clone denotes nor what any
subsequent `set_element_order` does to it — DOF-count accessors and solve are
pure functions of the denoted space, so they are unaffected too. -/
theorem C5_clone_independent (w w1 : World) (sid mid nmid cid : Nat) (sr : SpaceRef)
    (hs : w.findSpace sid = some sr) (hmid : sr.meshId = mid)
    (hcopy : w.copySpace sid nmid cid = some w1)
    (hne1 : cid ≠ sid) (hne2 : nmid ≠ mid) :
    (∀ eid o w2, w1.setElementOrder cid eid o = some w2 →
        w2.findSpace sid = w1.findSpace sid ∧ w2.spaceOf sid = w1.spaceOf sid) ∧
      ((w1.deleteSpace sid).deleteMesh mid).spaceOf cid = w1.spaceOf cid ∧
      ∀ eid o, (((w1.deleteSpace sid).deleteMesh mid).setElementOrder cid eid o).bind
          (fun ww => ww.spaceOf cid) =
        (w1.setElementOrder cid eid o).bind (fun ww => ww.spaceOf cid) := by
  obtain ⟨sr0, hs0, hw1⟩ := copySpace_inversion w sid nmid cid w1 hcopy
  have hsr0 : sr0 = sr := Option.some.inj (hs0.symm.trans hs)
  rw [hsr0] at hw1
  have hfsc : w1.findSpace cid = some ⟨nmid, sr.bcs, sr.orders⟩ := by
    subst hw1
    unfold World.findSpace
    rw [List.find?_cons_of_pos]
    · rfl
    · simp
  have hmesh : (⟨nmid, sr.bcs, sr.orders⟩ : SpaceRef).meshId ≠ mid := hne2
  refine ⟨?_, ?_, ?_⟩
  · intro eid o w2 hset
    exact setElementOrder_other_unchanged w1 cid eid o w2 sid (Ne.symm hne1) hset
  · exact delete_other_spaceOf w1 sid mid cid _ hfsc hne1 hmesh
  · intro eid o
    exact delete_other_setOrder w1 sid mid cid _ hfsc hne1 hmesh eid o

/-- Witness for C5 at the demo store: copy space 10 onto mesh 1 as clone 11,
then mutate and destroy. -/
theorem C5_clone_independent_witness :
    (demoWorld.findSpace 10 = some ⟨0, fanBCs, [1]⟩ ∧
      demoWorld.copySpace 10 1 11 = some demoWorldCopied) ∧
      (∀ eid o w2, demoWorldCopied.setElementOrder 11 eid o = some w2 →
          w2.findSpace 10 = demoWorldCopied.findSpace 10 ∧
          w2.spaceOf 10 = demoWorldCopied.spaceOf 10) ∧
      ((demoWorldCopied.deleteSpace 10).deleteMesh 0).spaceOf 11 =
        demoWorldCopied.spaceOf 11 ∧
      ∀ eid o, (((demoWorldCopied.deleteSpace 10).deleteMesh 0).setElementOrder 11 eid o).bind
          (fun ww => ww.spaceOf 11) =
        (demoWorldCopied.setElementOrder 11 eid o).bind (fun ww => ww.spaceOf 11) :=
  ⟨⟨rfl, rfl⟩, C5_clone_independent demoWorld demoWorldCopied 10 0 1 11
    ⟨0, fanBCs, [1]⟩ rfl rfl rfl (by decide) (by decide)⟩
